import Mathlib

/-!
Verification of the offline action queue and synchronization engine of the
lifepilot frontend: the `useOffline` hook and its IndexedDB-backed pending
action store (src/frontend/src/hooks/useVoice.js, lines 86-290 of the bundled
file; the hook itself is lines 180-289, the store helpers lines 99-178).

The embedding is shallow:
* IndexedDB's `pending-actions` object store (keyPath `id`, autoIncrement)
  becomes `Store`: a list of records in insertion order plus the
  auto-increment counter.  Because keys are assigned strictly increasingly
  and records are appended, insertion order coincides with ascending key
  order, which is the order `getAll()` returns (`Store.WF` states this).
* JavaScript values that can appear as an action's `data` payload become
  `JSValue`; JavaScript truthiness becomes `JSValue.truthy`.
* Fallible storage and network operations take explicit outcome parameters
  (the environment's choice) and return `Except` where the promise can
  reject; a rejected IndexedDB request aborts its transaction, so a failed
  operation leaves the store unchanged.
* The React hook's `syncPendingActions` (lines 241-270) is modelled twice:
  once as a sequential summary function `syncPendingActions` describing one
  complete invocation, and once as a small-step machine (`SyncPC`,
  `resumeStep`, `runSched`) whose steps are the synchronous segments between
  `await` suspension points, used to examine interleavings of several
  triggers.
-/

namespace LifePilot

/-- JavaScript values that can be stored as an action's `data` payload.
`num` carries an integer; non-integral and NaN floats are not needed by any
claim. `obj` covers both objects and arrays (always truthy). -/
inductive JSValue where
  | undefined
  | null
  | bool (b : Bool)
  | num (n : Int)
  | str (s : String)
  | obj (fields : List (String × JSValue))

/-- JavaScript truthiness of a value, as used by `action.data ? ... : undefined`
on line 254: `undefined`, `null`, `false`, `0` and `""` are falsy; every
object is truthy. -/
def JSValue.truthy : JSValue → Bool
  | .undefined => false
  | .null => false
  | .bool b => b
  | .num n => n != 0
  | .str s => s != ""
  | .obj _ => true

/-- The request body constructed for one replay on line 254:
`body: action.data ? JSON.stringify(action.data) : undefined`.
`some v` stands for a request whose body is the JSON serialization of `v`;
`none` stands for `body: undefined`, i.e. a request with no body. -/
def requestBody (data : JSValue) : Option JSValue :=
  if data.truthy then some data else none

/-- A record of the `pending-actions` object store: the caller-supplied
fields `type`/`endpoint`/`method`/`data` (line 231), the `timestamp` added
by `addPendingAction` (line 133), and the auto-increment key `id` assigned
by IndexedDB on insert (keyPath `id`, line 118). -/
structure Action where
  id : Nat
  type : String
  endpoint : String
  method : String
  data : JSValue
  timestamp : Nat

/-- The caller-supplied part of an action, before the store assigns an id. -/
structure ActionInput where
  type : String
  endpoint : String
  method : String
  data : JSValue

/-- The `pending-actions` IndexedDB object store: records in insertion order
together with the auto-increment key counter (IndexedDB key generators start
at 1). -/
structure Store where
  records : List Action
  nextId : Nat

def Store.empty : Store := ⟨[], 1⟩

/-- Well-formedness of the store, maintained by every operation: record ids
are strictly increasing along the list (so insertion order is ascending key
order, the order `getAll()` returns) and below the key counter. -/
def Store.WF (s : Store) : Prop :=
  List.Chain' (fun a b => a.id < b.id) s.records ∧ ∀ a ∈ s.records, a.id < s.nextId

/-- Errors with which the storage helpers' promises can reject. -/
inductive StorageError where
  | unavailable
  | writeError
  | readError
deriving DecidableEq

/-- The environment's outcome for one `addPendingAction` call: the IndexedDB
open request failed (`initDB` rejects, line 108), the `store.add` request
failed (line 137), or everything succeeded. -/
inductive WriteOutcome where
  | ok
  | unavailable
  | writeError
deriving DecidableEq

/-- The environment's outcome for one read (`getPendingActions`): `initDB`
or the `getAll` request failed, or it succeeded. -/
inductive ReadOutcome where
  | ok
  | readError
deriving DecidableEq

/-- Successful path of `addPendingAction` (lines 125-139): the record is
stored with the spread caller fields plus `timestamp: Date.now()`, IndexedDB
assigns the next auto-increment key, and the request resolves with that key. -/
def appendRecord (s : Store) (inp : ActionInput) (now : Nat) : Store × Nat :=
  (⟨s.records ++ [⟨s.nextId, inp.type, inp.endpoint, inp.method, inp.data, now⟩],
    s.nextId + 1⟩, s.nextId)

/-- `addPendingAction(action)` (lines 125-139).  On failure the promise
rejects and the aborted transaction leaves the store unchanged (no partial
state); on success it resolves with the assigned key. -/
def addPendingAction (wo : WriteOutcome) (s : Store) (inp : ActionInput) (now : Nat) :
    Except StorageError (Store × Nat) :=
  match wo with
  | .ok => .ok (appendRecord s inp now)
  | .unavailable => .error .unavailable
  | .writeError => .error .writeError

/-- `getPendingActions()` (lines 142-152): `store.getAll()`, which returns
all records in ascending key order — under `Store.WF` that is exactly the
list in insertion order. -/
def getPendingActions (s : Store) : List Action :=
  s.records

/-- `getPendingActions()` with its failure mode: the promise rejects on an
`initDB` or `getAll` error and resolves with the record list otherwise. -/
def getPendingActionsE (ro : ReadOutcome) (s : Store) : Except StorageError (List Action) :=
  match ro with
  | .ok => .ok s.records
  | .readError => .error .readError

/-- `removePendingAction(id)` (lines 155-165): `store.delete(id)`.  An
IndexedDB `delete` request succeeds whether or not a record with that key
exists, so the operation is total: it removes the record with the given id
if present and is a no-op otherwise. -/
def removePendingAction (id : Nat) (s : Store) : Store :=
  ⟨s.records.filter (fun a => a.id != id), s.nextId⟩

/-- `clearPendingActions()` (lines 168-178): `store.clear()` deletes all
records unconditionally (the key generator is not reset). -/
def clearPendingActions (s : Store) : Store :=
  ⟨[], s.nextId⟩

/-- `refreshPendingCount` (lines 186-193): recomputes the count from a fresh
`getPendingActions()` read; its own `catch` swallows a read error, leaving
the previous count in place, and never rethrows. -/
def refreshPendingCount (ro : ReadOutcome) (s : Store) (oldCount : Nat) : Nat :=
  match ro with
  | .ok => (getPendingActions s).length
  | .readError => oldCount

/-- `queueAction(type, endpoint, method, data)` (lines 229-238): tries
`addPendingAction` then `refreshPendingCount` inside one `try`, returns
`true` on success and `false` from its `catch` on any storage failure.
Returns (returned boolean, store afterwards, pendingCount afterwards).
The function is total: a storage failure yields `false`, never a thrown
error. -/
def queueAction (wo : WriteOutcome) (ro : ReadOutcome) (s : Store) (inp : ActionInput)
    (now oldCount : Nat) : Bool × Store × Nat :=
  match addPendingAction wo s inp now with
  | .ok (s', _) => (true, s', refreshPendingCount ro s' oldCount)
  | .error _ => (false, s, oldCount)

/-- Outcome of one `fetch` of a queued action (lines 251-255): the promise
resolves with `response.ok` true, resolves with `response.ok` false (HTTP
error), or rejects (network error, caught on line 260). -/
inductive FetchOutcome where
  | ok
  | httpError
  | netError
deriving DecidableEq

def FetchOutcome.isOk : FetchOutcome → Bool
  | .ok => true
  | _ => false

/-- The replay loop of `syncPendingActions` (lines 249-264) over a snapshot
of actions.  For each action in order a `fetch` is issued (its id appended
to the call log); if the response is ok the action is removed from the
store — a rejected removal is caught by the inner `catch` (line 260) and
the action stays; on an HTTP or network error the action also stays; in
every case the loop continues with the next action.  `net` gives the fetch
outcome per action id and `removeOk` whether that action's removal request
succeeds. -/
def replayLoop (net : Nat → FetchOutcome) (removeOk : Nat → Bool) :
    List Action → Store → List Nat → Store × List Nat
  | [], s, log => (s, log)
  | a :: rest, s, log =>
    match net a.id with
    | .ok =>
      if removeOk a.id then
        replayLoop net removeOk rest (removePendingAction a.id s) (log ++ [a.id])
      else
        replayLoop net removeOk rest s (log ++ [a.id])
    | _ => replayLoop net removeOk rest s (log ++ [a.id])

/-- The ids of the snapshot actions that are successfully replayed and
successfully removed during the loop. -/
def removedIds (net : Nat → FetchOutcome) (removeOk : Nat → Bool) (l : List Action) : List Nat :=
  (l.filter (fun a => (net a.id).isOk && removeOk a.id)).map (fun a => a.id)

/-- What one complete invocation of `syncPendingActions` (lines 241-270)
leaves behind. -/
structure SyncResult where
  result : Except StorageError Unit
  isSyncing : Bool
  pendingCount : Nat
  store : Store
  netLog : List Nat

/-- Sequential summary of one invocation of `syncPendingActions`
(lines 241-270).  Guard: `if (!navigator.onLine || isSyncing) return;` —
`navOnline` is the live `navigator.onLine` and `isSyncing` the value the
invoked closure captured.  Past the guard it sets `isSyncing` true, reads
the snapshot once (`ro1`; a rejection propagates to the caller through the
`finally`), replays the snapshot, refreshes the pending count (`ro2`; its
internal catch swallows failures), and the `finally` resets `isSyncing` to
false on every path. -/
def syncPendingActions (ro1 ro2 : ReadOutcome) (net : Nat → FetchOutcome)
    (removeOk : Nat → Bool) (navOnline isSyncing : Bool) (oldCount : Nat) (s : Store) :
    SyncResult :=
  if !navOnline || isSyncing then ⟨.ok (), isSyncing, oldCount, s, []⟩
  else
    match getPendingActionsE ro1 s with
    | .error e => ⟨.error e, false, oldCount, s, []⟩
    | .ok actions =>
      let r := replayLoop net removeOk actions s []
      ⟨.ok (), false, refreshPendingCount ro2 r.1 oldCount, r.1, r.2⟩

/-!
Small-step machine for `syncPendingActions` under concurrency.

An `await` is a suspension point: the JavaScript event loop may run other
work — in particular another trigger of `syncPendingActions` — between the
synchronous segments of one invocation.  `SyncPC` records at which `await`
an invocation is suspended; `resumeStep` runs one synchronous segment.

React semantics of the guard, read off the source:
* `syncPendingActions` is a `useCallback` whose body reads the state
  variable `isSyncing` (line 242) as a value captured when the callback was
  created, i.e. at the render that produced that closure.  `setIsSyncing`
  (line 244) updates the live state and causes a re-render that creates a
  NEW callback; it never changes the value captured by an existing closure.
* The mount effect (lines 196-226) registers `handleOnline` and the
  service-worker message listener once — its dependency array is
  `[refreshPendingCount]` and `refreshPendingCount` is a `useCallback` with
  an empty dependency array, so its identity never changes and the effect
  never re-runs.  Those listeners therefore permanently invoke the mount
  render's `syncPendingActions` closure, whose captured `isSyncing` is the
  mount value `false`.
Hence `fireListenerTrigger` spawns an invocation whose guard reads
`capturedIsSyncing = false` regardless of the live `isSyncing` flag, while
`navigator.onLine` (also read by the guard, line 242) is live.
-/

/-- Where an invocation of `syncPendingActions` is suspended: at
`await getPendingActions()` (line 247), at `await fetch(...)` (line 251)
for the current action with the rest of the snapshot pending, at
`await removePendingAction(...)` (line 258), at
`await refreshPendingCount()` (line 266), or finished. -/
inductive SyncPC where
  | readPending
  | fetching (current : Action) (rest : List Action)
  | removing (current : Action) (rest : List Action)
  | refreshing
  | done

/-- One suspended invocation of `syncPendingActions`: the `isSyncing` value
its closure captured at creation, and its program counter. -/
structure SyncTask where
  capturedIsSyncing : Bool
  pc : SyncPC

/-- The live state visible to all invocations: `navigator.onLine`, the
React state `isSyncing` and `pendingCount`, the IndexedDB store and the
chronological log of fetch calls issued (by action id). -/
structure HookWorld where
  navOnline : Bool
  isSyncing : Bool
  pendingCount : Nat
  store : Store
  netLog : List Nat

/-- Fire one sync trigger through the `online` / service-worker listeners
(lines 197-216): the handler synchronously runs the mount render's
`syncPendingActions` closure up to its first `await`.  The guard reads the
live `navigator.onLine` and the closure's captured `isSyncing`, which for
the mount-render closure is `false`; if it passes, the live `isSyncing` is
set to true and the invocation suspends at `await getPendingActions()`. -/
def fireListenerTrigger (w : HookWorld) : HookWorld × Option SyncTask :=
  let captured := false
  if !w.navOnline || captured then (w, none)
  else ({ w with isSyncing := true }, some ⟨captured, .readPending⟩)

/-- Resume one suspended invocation: run its next synchronous segment up to
the following `await` (or to completion).  Issuing a `fetch` appends the
action's id to the network log at the moment the call is made.  All storage
promises resolve successfully here (`net` alone decides replay outcomes). -/
def resumeStep (net : Nat → FetchOutcome) (w : HookWorld) (t : SyncTask) :
    HookWorld × SyncTask :=
  match t.pc with
  | .readPending =>
    match getPendingActions w.store with
    | [] => (w, { t with pc := .refreshing })
    | a :: rest => ({ w with netLog := w.netLog ++ [a.id] }, { t with pc := .fetching a rest })
  | .fetching a rest =>
    match net a.id with
    | .ok => (w, { t with pc := .removing a rest })
    | _ =>
      match rest with
      | [] => (w, { t with pc := .refreshing })
      | b :: rest' =>
        ({ w with netLog := w.netLog ++ [b.id] }, { t with pc := .fetching b rest' })
  | .removing a rest =>
    let w' := { w with store := removePendingAction a.id w.store }
    match rest with
    | [] => (w', { t with pc := .refreshing })
    | b :: rest' =>
      ({ w' with netLog := w'.netLog ++ [b.id] }, { t with pc := .fetching b rest' })
  | .refreshing =>
    ({ w with pendingCount := w.store.records.length, isSyncing := false },
     { t with pc := .done })
  | .done => (w, t)

/-- A scheduling command: fire a fresh trigger through the listeners, or
resume the `i`-th running invocation for one synchronous segment. -/
inductive SchedCmd where
  | trigger
  | step (i : Nat)

/-- Execute a schedule of triggers and resumptions. -/
def runSched (net : Nat → FetchOutcome) :
    List SchedCmd → HookWorld × List SyncTask → HookWorld × List SyncTask
  | [], wts => wts
  | .trigger :: cmds, (w, ts) =>
    match fireListenerTrigger w with
    | (w', none) => runSched net cmds (w', ts)
    | (w', some t) => runSched net cmds (w', ts ++ [t])
  | .step i :: cmds, (w, ts) =>
    match ts[i]? with
    | none => runSched net cmds (w, ts)
    | some t =>
      let (w', t') := resumeStep net w t
      runSched net cmds (w', ts.set i t')

/-- The store and call log of a pass after its first `k` snapshot actions
have been processed — the suspension point just before the `(k+1)`-st fetch
is issued (all removals succeed). -/
def midPass (net : Nat → FetchOutcome) (s : Store) (k : Nat) : Store × List Nat :=
  replayLoop net (fun _ => true) ((getPendingActions s).take k) s []

/-- The pair (value of `pendingCount` the UI reads, number of records
`getPendingActions()` would return) at the suspension point of a pass after
its first `k` snapshot actions have been processed.  The loop body
(lines 249-264) contains no `setPendingCount` call — the count is only
refreshed after the loop (line 266) — so mid-pass the UI still reads the
value `oldCount` from before the pass. -/
def midPassObservation (net : Nat → FetchOutcome) (s : Store) (oldCount k : Nat) :
    Nat × Nat :=
  (oldCount, (getPendingActions (midPass net s k).1).length)

/-- A pass during which, after the first `k` snapshot actions have been
processed, a concurrent `queueAction` appends a new record; the pass then
continues with the remaining snapshot actions.  Returns the final store,
the full fetch log of the pass, and the id assigned to the new record. -/
def passWithMidEnqueue (net : Nat → FetchOutcome) (s : Store) (k : Nat)
    (inp : ActionInput) (now : Nat) : Store × List Nat × Nat :=
  let snapshot := getPendingActions s
  let r1 := replayLoop net (fun _ => true) (snapshot.take k) s []
  let r2 := appendRecord r1.1 inp now
  let r3 := replayLoop net (fun _ => true) (snapshot.drop k) r2.1 r1.2
  (r3.1, r3.2, r2.2)

/-! ### General lemmas about the store and the replay loop -/

theorem removePendingAction_mem (id : Nat) (s : Store) (r : Action) :
    r ∈ (removePendingAction id s).records ↔ r ∈ s.records ∧ r.id ≠ id := by
  simp [removePendingAction, List.mem_filter]

theorem removePendingAction_nextId (id : Nat) (s : Store) :
    (removePendingAction id s).nextId = s.nextId := rfl

theorem removedIds_cons (net : Nat → FetchOutcome) (removeOk : Nat → Bool)
    (a : Action) (rest : List Action) :
    removedIds net removeOk (a :: rest) =
      if (net a.id).isOk && removeOk a.id then a.id :: removedIds net removeOk rest
      else removedIds net removeOk rest := by
  simp only [removedIds, List.filter_cons]
  split <;> simp

theorem removedIds_subset (net : Nat → FetchOutcome) (removeOk : Nat → Bool)
    (l : List Action) :
    ∀ x ∈ removedIds net removeOk l, x ∈ l.map (fun a => a.id) := by
  intro x hx
  simp only [removedIds, List.mem_map, List.mem_filter] at hx
  obtain ⟨a, ⟨ha, _⟩, rfl⟩ := hx
  exact List.mem_map_of_mem _ ha

theorem replayLoop_nextId (net : Nat → FetchOutcome) (removeOk : Nat → Bool) :
    ∀ (l : List Action) (s : Store) (log : List Nat),
      (replayLoop net removeOk l s log).1.nextId = s.nextId := by
  intro l
  induction l with
  | nil => intro s log; rfl
  | cons a rest ih =>
    intro s log
    cases h : net a.id with
    | ok =>
      cases hr : removeOk a.id with
      | true => simp [replayLoop, h, hr, ih, removePendingAction_nextId]
      | false => simp [replayLoop, h, hr, ih]
    | httpError => simp [replayLoop, h, ih]
    | netError => simp [replayLoop, h, ih]

theorem replayLoop_log (net : Nat → FetchOutcome) (removeOk : Nat → Bool) :
    ∀ (l : List Action) (s : Store) (log : List Nat),
      (replayLoop net removeOk l s log).2 = log ++ l.map (fun a => a.id) := by
  intro l
  induction l with
  | nil => intro s log; simp [replayLoop]
  | cons a rest ih =>
    intro s log
    cases h : net a.id with
    | ok =>
      cases hr : removeOk a.id with
      | true => simp [replayLoop, h, hr, ih]
      | false => simp [replayLoop, h, hr, ih]
    | httpError => simp [replayLoop, h, ih]
    | netError => simp [replayLoop, h, ih]

theorem replayLoop_mem (net : Nat → FetchOutcome) (removeOk : Nat → Bool) :
    ∀ (l : List Action) (s : Store) (log : List Nat) (r : Action),
      r ∈ (replayLoop net removeOk l s log).1.records ↔
        r ∈ s.records ∧ r.id ∉ removedIds net removeOk l := by
  intro l
  induction l with
  | nil => intro s log r; simp [replayLoop, removedIds]
  | cons a rest ih =>
    intro s log r
    cases h : net a.id with
    | ok =>
      cases hr : removeOk a.id with
      | true =>
        simp only [replayLoop, h, hr, if_true, ih, removePendingAction_mem,
          removedIds_cons, FetchOutcome.isOk, Bool.true_and, List.mem_cons]
        tauto
      | false =>
        simp [replayLoop, h, hr, ih, removedIds_cons, FetchOutcome.isOk]
    | httpError =>
      simp only [replayLoop, h, ih, removedIds_cons, FetchOutcome.isOk,
        Bool.false_and, Bool.false_eq_true]
      simp
    | netError =>
      simp only [replayLoop, h, ih, removedIds_cons, FetchOutcome.isOk,
        Bool.false_and, Bool.false_eq_true]
      simp

theorem replayLoop_append (net : Nat → FetchOutcome) (removeOk : Nat → Bool) :
    ∀ (l₁ l₂ : List Action) (s : Store) (log : List Nat),
      replayLoop net removeOk (l₁ ++ l₂) s log =
        replayLoop net removeOk l₂ (replayLoop net removeOk l₁ s log).1
          (replayLoop net removeOk l₁ s log).2 := by
  intro l₁
  induction l₁ with
  | nil => intro l₂ s log; simp [replayLoop]
  | cons a rest ih =>
    intro l₂ s log
    cases h : net a.id with
    | ok =>
      cases hr : removeOk a.id with
      | true => simp [replayLoop, h, hr, ih]
      | false => simp [replayLoop, h, hr, ih]
    | httpError => simp [replayLoop, h, ih]
    | netError => simp [replayLoop, h, ih]

/-- In a well-formed store the record ids are pairwise distinct, so the id
determines the record. -/
theorem Store.WF.id_injective {s : Store} (hwf : s.WF) :
    ∀ a ∈ s.records, ∀ b ∈ s.records, a.id = b.id → a = b := by
  haveI : IsTrans Action (fun a b => a.id < b.id) :=
    ⟨fun _ _ _ h1 h2 => Nat.lt_trans h1 h2⟩
  have hp : s.records.Pairwise (fun a b => a.id < b.id) :=
    (List.chain'_iff_pairwise).1 hwf.1
  have hlt : (s.records.map (fun a => a.id)).Pairwise (· < ·) :=
    List.Pairwise.map (S := (· < ·)) _ (fun _ _ h => h) hp
  have hnd : (s.records.map (fun a => a.id)).Nodup :=
    hlt.imp (fun hxy => Nat.ne_of_lt hxy)
  exact fun a ha b hb hab => List.inj_on_of_nodup_map hnd ha hb hab

theorem mem_removedIds (net : Nat → FetchOutcome) (removeOk : Nat → Bool)
    (l : List Action) (x : Nat) :
    x ∈ removedIds net removeOk l ↔
      ∃ c ∈ l, ((net c.id).isOk && removeOk c.id) = true ∧ c.id = x := by
  simp only [removedIds, List.mem_map, List.mem_filter]
  constructor
  · rintro ⟨c, ⟨hc, hp⟩, rfl⟩
    exact ⟨c, hc, hp, rfl⟩
  · rintro ⟨c, hc, hp, rfl⟩
    exact ⟨c, ⟨hc, hp⟩, rfl⟩

/-! ### Concrete sample data for witness evaluations -/

/-- Sample queued actions, as enqueued in order into an empty store. -/
def actionA : Action :=
  ⟨1, "create_item", "/items", "POST", .obj [("content", .str "buy milk")], 10⟩

def actionB : Action := ⟨2, "update_contact", "/contacts/7", "PUT", .null, 11⟩

def actionC : Action := ⟨3, "delete_item", "/items/4", "DELETE", .undefined, 12⟩

/-- A store holding `actionA`, `actionB`, `actionC` in enqueue order. -/
def demoStore : Store := ⟨[actionA, actionB, actionC], 4⟩

def demoInput : ActionInput :=
  ⟨"create_item", "/items", "POST", .obj [("content", .str "buy milk")]⟩

theorem demoStore_WF : demoStore.WF := by
  constructor
  · simp [demoStore, List.chain'_cons, actionA, actionB, actionC]
  · intro a ha
    simp only [demoStore, List.mem_cons, List.not_mem_nil, or_false] at ha
    rcases ha with rfl | rfl | rfl <;> simp [demoStore, actionA, actionB, actionC]

/-! ### Claim theorems -/

/-- C10: the replay request carries a JSON-serialized body exactly when the
stored payload is truthy; every falsy payload — `undefined`, `null`, `0`,
the empty string and `false` — yields a request with no body rather than a
JSON-encoded falsy value. -/
theorem requestBody_iff_truthy (v : JSValue) :
    ((requestBody v).isSome = v.truthy) ∧
    requestBody .undefined = none ∧
    requestBody .null = none ∧
    requestBody (.num 0) = none ∧
    requestBody (.str "") = none ∧
    requestBody (.bool false) = none := by
  refine ⟨?_, rfl, rfl, by simp [requestBody, JSValue.truthy],
    by simp [requestBody, JSValue.truthy], rfl⟩
  cases h : v.truthy <;> simp [requestBody, h]

/-- C6: removing an id that is not in the store is a no-op and does not
error (the operation is total), and removal is idempotent: a second
`removePendingAction` for the same id leaves exactly the store the first
call produced. -/
theorem removePendingAction_noop_idempotent (s : Store) (id : Nat) :
    ((∀ a ∈ s.records, a.id ≠ id) → removePendingAction id s = s) ∧
    removePendingAction id (removePendingAction id s) = removePendingAction id s := by
  constructor
  · intro h
    cases s with
    | mk records nextId =>
      simp only [removePendingAction, Store.mk.injEq, and_true]
      exact List.filter_eq_self.2 (fun a ha => by simpa using h a ha)
  · cases s with
    | mk records nextId =>
      simp only [removePendingAction, Store.mk.injEq, and_true]
      rw [List.filter_filter]
      exact List.filter_congr (fun a _ => by cases h : a.id != id <;> simp [h])

/-- Witness for C6: on the sample store, removing the absent id 5 changes
nothing, and removing id 1 twice equals removing it once. -/
theorem removePendingAction_noop_idempotent_witness :
    removePendingAction 5 demoStore = demoStore ∧
    removePendingAction 1 (removePendingAction 1 demoStore) =
      removePendingAction 1 demoStore :=
  ⟨(removePendingAction_noop_idempotent demoStore 5).1 (by decide),
   (removePendingAction_noop_idempotent demoStore 1).2⟩

/-- C5: `queueAction` returns `true` exactly when the append to the store
succeeded; on any storage failure (`StorageWriteError` or
`StorageUnavailable`) it returns `false` — the function is total, so no
error escapes to the caller — and then the action was not queued: the store
is exactly as before (and the pending count is untouched). -/
theorem queueAction_success_iff (wo : WriteOutcome) (ro : ReadOutcome) (s : Store)
    (inp : ActionInput) (now oldCount : Nat) :
    ((queueAction wo ro s inp now oldCount).1 = true ↔ wo = .ok) ∧
    (wo ≠ .ok →
      (queueAction wo ro s inp now oldCount).1 = false ∧
      (queueAction wo ro s inp now oldCount).2.1 = s ∧
      (queueAction wo ro s inp now oldCount).2.2 = oldCount) := by
  cases wo <;> simp [queueAction, addPendingAction]

/-- Witness for C5: a successful append returns `true`; a failed append
(`writeError` or `unavailable`) returns `false` and leaves the sample store
untouched. -/
theorem queueAction_success_iff_witness :
    (queueAction .ok .ok demoStore demoInput 20 3).1 = true ∧
    (queueAction .writeError .ok demoStore demoInput 20 3).1 = false ∧
    (queueAction .writeError .ok demoStore demoInput 20 3).2.1 = demoStore ∧
    (queueAction .unavailable .ok demoStore demoInput 20 3).1 = false :=
  ⟨(queueAction_success_iff .ok .ok demoStore demoInput 20 3).1.2 rfl,
   ((queueAction_success_iff .writeError .ok demoStore demoInput 20 3).2 (by decide)).1,
   ((queueAction_success_iff .writeError .ok demoStore demoInput 20 3).2 (by decide)).2.1,
   ((queueAction_success_iff .unavailable .ok demoStore demoInput 20 3).2 (by decide)).1⟩

/-- C9: every invocation of `syncPendingActions` that passes the entry guard
ends with `isSyncing = false`, whatever the outcomes of the initial store
read (`ro1`, whose failure propagates to the caller), of every replay
(`net`) and of every removal (`removeOk`) — the reset sits in the `finally`
block, so the SYNCING state can never become permanent. -/
theorem isSyncing_reset_after_pass (ro1 ro2 : ReadOutcome) (net : Nat → FetchOutcome)
    (removeOk : Nat → Bool) (navOnline isSyncing : Bool) (oldCount : Nat) (s : Store)
    (hguard : (!navOnline || isSyncing) = false) :
    (syncPendingActions ro1 ro2 net removeOk navOnline isSyncing oldCount s).isSyncing
      = false := by
  cases ro1 <;> simp [syncPendingActions, hguard, getPendingActionsE]

/-- Witness for C9: with the guard passing (`navigator.onLine` true, the
captured `isSyncing` false) and the initial store read failing, the
invocation still ends with `isSyncing = false`. -/
theorem isSyncing_reset_after_pass_witness :
    ((!true || false) = false) ∧
    (syncPendingActions .readError .ok (fun _ => .ok) (fun _ => true) true false 3
      demoStore).isSyncing = false :=
  ⟨rfl, isSyncing_reset_after_pass .readError .ok (fun _ => .ok) (fun _ => true)
    true false 3 demoStore rfl⟩

/-- C2: for a queue holding actions `A`, `B`, `C` enqueued in that order
(well-formed store, so ids ascend), when the network accepts all three, a
single sync pass issues the network calls for `A`, then `B`, then `C` — in
ascending id order — and the store is empty after the pass. -/
theorem fifo_replay_pass (A B C : Action) (n oldCount : Nat) (ro2 : ReadOutcome)
    (net : Nat → FetchOutcome) (hwf : (Store.mk [A, B, C] n).WF)
    (hA : net A.id = .ok) (hB : net B.id = .ok) (hC : net C.id = .ok) :
    (syncPendingActions .ok ro2 net (fun _ => true) true false oldCount
        ⟨[A, B, C], n⟩).netLog = [A.id, B.id, C.id] ∧
    A.id < B.id ∧ B.id < C.id ∧
    (syncPendingActions .ok ro2 net (fun _ => true) true false oldCount
        ⟨[A, B, C], n⟩).store.records = [] := by
  have hch := hwf.1
  simp only [List.chain'_cons, List.chain'_singleton, and_true] at hch
  have hrem : ∀ r ∈ ([A, B, C] : List Action),
      r.id ∈ removedIds net (fun _ => true) [A, B, C] := by
    intro r hr
    rw [mem_removedIds]
    refine ⟨r, hr, ?_, rfl⟩
    simp only [List.mem_cons, List.not_mem_nil, or_false] at hr
    rcases hr with rfl | rfl | rfl <;> simp [hA, hB, hC, FetchOutcome.isOk]
  refine ⟨?_, hch.1, hch.2, ?_⟩
  · simp [syncPendingActions, getPendingActionsE, replayLoop_log]
  · rw [List.eq_nil_iff_forall_not_mem]
    intro r hr
    simp only [syncPendingActions, getPendingActionsE, Bool.not_true,
      Bool.false_or, Bool.false_eq_true, if_false] at hr
    rw [replayLoop_mem] at hr
    exact hr.2 (hrem r hr.1)

/-- Witness for C2: the three sample actions (ids 1, 2, 3), all accepted by
the network, are fetched as 1, 2, 3 and leave the store empty. -/
theorem fifo_replay_pass_witness :
    (syncPendingActions .ok .ok (fun _ => .ok) (fun _ => true) true false 3
        ⟨[actionA, actionB, actionC], 4⟩).netLog
      = [actionA.id, actionB.id, actionC.id] ∧
    actionA.id < actionB.id ∧ actionB.id < actionC.id ∧
    (syncPendingActions .ok .ok (fun _ => .ok) (fun _ => true) true false 3
        ⟨[actionA, actionB, actionC], 4⟩).store.records = [] :=
  fifo_replay_pass actionA actionB actionC 4 3 .ok (fun _ => .ok)
    demoStore_WF rfl rfl rfl

/-- C3: in any pass over a well-formed store, an action whose replay fails
stays queued while any action whose replay succeeds is removed — regardless
of their relative order, so a failed action never blocks later actions —
and the pass reports success to its caller (`.ok ()`) whatever the
individual replay and removal outcomes are. -/
theorem no_head_of_line_blocking (s : Store) (net : Nat → FetchOutcome)
    (ro2 : ReadOutcome) (oldCount : Nat) (a b : Action) (hwf : s.WF)
    (ha : a ∈ s.records) (hb : b ∈ s.records)
    (hfa : (net a.id).isOk = false) (hfb : net b.id = .ok) :
    a ∈ (syncPendingActions .ok ro2 net (fun _ => true) true false oldCount
          s).store.records ∧
    b ∉ (syncPendingActions .ok ro2 net (fun _ => true) true false oldCount
          s).store.records ∧
    ∀ (net' : Nat → FetchOutcome) (removeOk : Nat → Bool),
      (syncPendingActions .ok ro2 net' removeOk true false oldCount s).result
        = .ok () := by
  refine ⟨?_, ?_, ?_⟩
  · simp only [syncPendingActions, getPendingActionsE, Bool.not_true,
      Bool.false_or, Bool.false_eq_true, if_false]
    rw [replayLoop_mem]
    refine ⟨ha, fun hmem => ?_⟩
    rw [mem_removedIds] at hmem
    obtain ⟨c, hc, hok, hcid⟩ := hmem
    have : c = a := hwf.id_injective c hc a ha hcid
    subst this
    simp [hfa] at hok
  · intro hmem
    simp only [syncPendingActions, getPendingActionsE, Bool.not_true,
      Bool.false_or, Bool.false_eq_true, if_false] at hmem
    rw [replayLoop_mem] at hmem
    exact hmem.2 ((mem_removedIds _ _ _ _).2
      ⟨b, hb, by simp [hfb, FetchOutcome.isOk], rfl⟩)
  · intro net' removeOk
    simp [syncPendingActions, getPendingActionsE]

/-- Witness for C3: with the network rejecting action 1 and accepting
actions 2 and 3, a pass over the sample store keeps action 1, removes
action 2 and completes without error. -/
theorem no_head_of_line_blocking_witness :
    actionA ∈ (syncPendingActions .ok .ok
        (fun id => if id = 1 then .httpError else .ok) (fun _ => true)
        true false 3 demoStore).store.records ∧
    actionB ∉ (syncPendingActions .ok .ok
        (fun id => if id = 1 then .httpError else .ok) (fun _ => true)
        true false 3 demoStore).store.records ∧
    ∀ (net' : Nat → FetchOutcome) (removeOk : Nat → Bool),
      (syncPendingActions .ok .ok net' removeOk true false 3 demoStore).result
        = .ok () :=
  no_head_of_line_blocking demoStore
    (fun id => if id = 1 then .httpError else .ok) .ok 3 actionA actionB
    demoStore_WF (List.mem_cons_self _ _)
    (List.mem_cons_of_mem _ (List.mem_cons_self _ _)) (by decide) (by decide)

/-- C4: removals during a pass are never batched.  At the intermediate
point reached after the first `k` snapshot actions have been processed —
a genuine state of the full pass, as the second conjunct shows — a record
is still in the store exactly when it was there at pass start and is not
among the actions already confirmed successful (and removed) so far: every
confirmed action is gone before the next one is attempted, and every record
still present is one whose replay has not yet been confirmed. -/
theorem immediate_removal_invariant (net : Nat → FetchOutcome) (s : Store)
    (k : Nat) (r : Action) :
    (r ∈ (midPass net s k).1.records ↔
      r ∈ s.records ∧
        r.id ∉ removedIds net (fun _ => true) ((getPendingActions s).take k)) ∧
    replayLoop net (fun _ => true) (getPendingActions s) s [] =
      replayLoop net (fun _ => true) ((getPendingActions s).drop k)
        (midPass net s k).1 (midPass net s k).2 := by
  constructor
  · exact replayLoop_mem net (fun _ => true) ((getPendingActions s).take k) s [] r
  · have h := replayLoop_append net (fun _ => true) ((getPendingActions s).take k)
      ((getPendingActions s).drop k) s []
    rw [List.take_append_drop] at h
    exact h

/-- Counterexample to C7: `pendingCount` is refreshed only after the replay
loop (line 266), not after each mid-pass removal.  On a store holding two
actions (both accepted by the network) with `pendingCount = 2` at pass
start, at the suspension point after the first action has been processed
the UI still reads `pendingCount = 2` while `getPendingActions()` would
return 1 record. -/
theorem pendingCount_midpass_counterexample :
    (midPassObservation (fun _ => .ok) ⟨[actionA, actionB], 3⟩ 2 1).1 ≠
      (midPassObservation (fun _ => .ok) ⟨[actionA, actionB], 3⟩ 2 1).2 := by
  decide

/-- C7 as amended: at the checkpoints where the code refreshes the count —
after a successful enqueue and at the end of every sync pass, partial or
full — `pendingCount` equals the number of records `getPendingActions()`
would return, recomputed from a fresh store read rather than by
incremental arithmetic; mid-pass points are excluded. -/
theorem pendingCount_refresh_checkpoints (net : Nat → FetchOutcome)
    (removeOk : Nat → Bool) (s : Store) (inp : ActionInput) (now oldCount : Nat) :
    (queueAction .ok .ok s inp now oldCount).2.2 =
      (getPendingActions (queueAction .ok .ok s inp now oldCount).2.1).length ∧
    (syncPendingActions .ok .ok net removeOk true false oldCount s).pendingCount =
      (getPendingActions
        (syncPendingActions .ok .ok net removeOk true false oldCount s).store).length := by
  constructor
  · simp [queueAction, addPendingAction, refreshPendingCount]
  · simp [syncPendingActions, getPendingActionsE, refreshPendingCount]

/-- C8: the pass reads the snapshot once at its start: its fetch log is
exactly the snapshot's ids, so an action appended by a concurrent enqueue
after `k` snapshot actions have been processed is not replayed by this pass
(its fresh id, the store's `nextId`, is never fetched) and survives in the
final store with all its fields intact — the concurrent enqueue does not
corrupt the pass or the store. -/
theorem pass_snapshot_isolation (net : Nat → FetchOutcome) (s : Store) (k : Nat)
    (inp : ActionInput) (now : Nat) (hwf : s.WF) :
    (passWithMidEnqueue net s k inp now).2.1 =
      (getPendingActions s).map (fun a => a.id) ∧
    (passWithMidEnqueue net s k inp now).2.2 = s.nextId ∧
    s.nextId ∉ (passWithMidEnqueue net s k inp now).2.1 ∧
    (⟨s.nextId, inp.type, inp.endpoint, inp.method, inp.data, now⟩ : Action) ∈
      (passWithMidEnqueue net s k inp now).1.records := by
  have hnid : (replayLoop net (fun _ => true) ((getPendingActions s).take k)
      s []).1.nextId = s.nextId :=
    replayLoop_nextId net (fun _ => true) ((getPendingActions s).take k) s []
  have hlt : ∀ x ∈ (getPendingActions s).map (fun a => a.id), x < s.nextId := by
    intro x hx
    rw [List.mem_map] at hx
    obtain ⟨a, ha, rfl⟩ := hx
    exact hwf.2 a ha
  have hlog : (passWithMidEnqueue net s k inp now).2.1 =
      (getPendingActions s).map (fun a => a.id) := by
    simp only [passWithMidEnqueue, replayLoop_log, List.nil_append]
    rw [← List.map_append, List.take_append_drop]
  refine ⟨hlog, by simp [passWithMidEnqueue, appendRecord, hnid], ?_, ?_⟩
  · rw [hlog]
    intro hmem
    exact absurd (hlt _ hmem) (Nat.lt_irrefl _)
  · simp only [passWithMidEnqueue]
    rw [replayLoop_mem]
    constructor
    · simp [appendRecord, hnid]
    · intro hmem
      have hsub := removedIds_subset net (fun _ => true)
        ((getPendingActions s).drop k) _ hmem
      have : s.nextId ∈ (getPendingActions s).map (fun a => a.id) := by
        rw [List.mem_map] at hsub ⊢
        obtain ⟨a, ha, hid⟩ := hsub
        exact ⟨a, List.mem_of_mem_drop ha, hid⟩
      exact absurd (hlt _ this) (Nat.lt_irrefl _)

/-- Witness for C8: on the sample store (ids 1-3, `nextId = 4`) with the
network accepting everything, an enqueue after one processed action yields
id 4, the pass fetches exactly ids 1, 2, 3, never id 4, and the new record
is intact in the final store. -/
theorem pass_snapshot_isolation_witness :
    (passWithMidEnqueue (fun _ => .ok) demoStore 1 demoInput 20).2.1 =
      (getPendingActions demoStore).map (fun a => a.id) ∧
    (passWithMidEnqueue (fun _ => .ok) demoStore 1 demoInput 20).2.2 =
      demoStore.nextId ∧
    demoStore.nextId ∉ (passWithMidEnqueue (fun _ => .ok) demoStore 1 demoInput 20).2.1 ∧
    (⟨demoStore.nextId, demoInput.type, demoInput.endpoint, demoInput.method,
        demoInput.data, 20⟩ : Action) ∈
      (passWithMidEnqueue (fun _ => .ok) demoStore 1 demoInput 20).1.records :=
  pass_snapshot_isolation (fun _ => .ok) demoStore 1 demoInput 20 demoStore_WF

/-- Initial world for the interleaving trace of C1: `navigator.onLine` is
true, no pass is running, and the store holds the single queued `actionA`
(so `pendingCount = 1` and `nextId = 2`). -/
def demoWorld : HookWorld := ⟨true, false, 1, ⟨[actionA], 2⟩, []⟩

/-- C1 fails on the code: two sync triggers fired through the listeners in
rapid succession — the second while the first invocation is still awaiting
its snapshot read, with the live `isSyncing` already true (first conjunct) —
BOTH pass the guard, because the listeners invoke the mount render's
closure whose captured `isSyncing` is permanently false and `setIsSyncing`
never changes a value already captured.  Resuming each invocation once then
makes each of them read the store and fetch `actionA`, so the single queued
action is replayed twice (fetch log `[1, 1]`) instead of the claimed single
set of network calls with the second trigger a no-op. -/
theorem duplicate_replay_under_rapid_triggers :
    (runSched (fun _ => .ok) [.trigger] (demoWorld, [])).1.isSyncing = true ∧
    (runSched (fun _ => .ok) [.trigger, .trigger] (demoWorld, [])).2.length = 2 ∧
    (runSched (fun _ => .ok) [.trigger, .trigger, .step 0, .step 1]
        (demoWorld, [])).1.netLog = [actionA.id, actionA.id] := by
  refine ⟨rfl, rfl, ?_⟩
  decide

end LifePilot
